import Mathlib

/-!
Verification development for the `rasadai` news-radar pipeline
(`src/main.py`, class `IranNewsRadar`).

The Python source is shallowly embedded below: pure helpers become Lean
functions over `String`, `ℚ` (Python floats that are only compared and
sorted) and `Int`; dict-shaped records become structures whose fields are
`Option`-typed (a `none` field models an absent key); network calls
(`_resolve_final_url`, `scrape_article_text`, the AI POST, `time.time`,
date parsing) are passed in as explicit oracle values, since the code only
threads their results through.  Character classes of the regexes are
modelled on the ASCII range (`\w` as alphanumeric-or-underscore, `\s` as
ASCII whitespace); Jaccard ratios are compared exactly over `ℚ`
(`|inter| / |union| > 0.35  ↔  20*|inter| > 7*|union|`).
-/

set_option maxRecDepth 200000

namespace RasadAI

/-! ## Character and string helpers (src/main.py `_normalize_text`, `_get_tokens`) -/

/-- ASCII model of the regex class `\w` (word character). -/
def isWordChar (c : Char) : Bool :=
  c.isAlphanum || c = '_'

/-- ASCII model of the regex class `\s` / Python `str.split()` whitespace. -/
def isPySpace (c : Char) : Bool :=
  c = ' ' || c = '\t' || c = '\n' || c = '\r' || c = '\x0b' || c = '\x0c'

/-- Python `str.lower()` (ASCII range). -/
def pyLower (s : String) : String :=
  ⟨s.data.map Char.toLower⟩

/-- `_normalize_text` (src/main.py:61-63): `re.sub(r'\W+', '', text).lower()`;
a `None`/empty argument gives the empty string. -/
def normalize_text (text : String) : String :=
  pyLower ⟨text.data.filter isWordChar⟩

/-- `leadsWith pat l` holds when `pat` is an initial segment of `l`. -/
def leadsWith : List Char → List Char → Bool
  | [], _ => true
  | _ :: _, [] => false
  | a :: as, b :: bs => a = b && leadsWith as bs

/-- Split a character list at the *last* occurrence of `sep`, returning the
parts before and after it, or `none` when `sep` does not occur. -/
def rsplitLast (sep : List Char) : List Char → Option (List Char × List Char)
  | [] => none
  | c :: cs =>
    match rsplitLast sep cs with
    | some (b, a) => some (c :: b, a)
    | none =>
      if leadsWith sep (c :: cs) then some ([], (c :: cs).drop sep.length)
      else none

/-- Python `title.rsplit(' - ', 1)[0]`: drop everything from the *last*
occurrence of the separator `" - "` on (src/main.py:300, :439); a title
without the separator is returned unchanged. -/
def stripSourceSuffix (title : String) : String :=
  match rsplitLast (" - ".data) title.data with
  | none => title
  | some (b, _) => ⟨b⟩

/-- Worker for `splitWs`: `cur` holds the current word reversed. -/
def splitWsAux : List Char → List Char → List String
  | [], cur => if cur.isEmpty then [] else [⟨cur.reverse⟩]
  | c :: cs, cur =>
    if isPySpace c then
      if cur.isEmpty then splitWsAux cs [] else ⟨cur.reverse⟩ :: splitWsAux cs []
    else splitWsAux cs (c :: cur)

/-- Python `str.split()` with no argument: split on whitespace runs,
discarding empty fields. -/
def splitWs (s : String) : List String :=
  splitWsAux s.data []

/-- The fixed stop-word set of `_get_tokens` (src/main.py:66). -/
def stop_words : List String :=
  ["a", "an", "the", "and", "or", "in", "on", "at", "to", "for", "of",
   "with", "by", "is", "are", "was", "news", "report"]

/-- `_get_tokens` (src/main.py:65-70): lowercase, strip punctuation
(`re.sub(r'[^\w\s]', '', ...)`), split on whitespace, remove stop words. -/
def get_tokens (text : String) : Finset String :=
  if text = "" then ∅
  else
    let clean : String := ⟨(pyLower text).data.filter (fun c => isWordChar c || isPySpace c)⟩
    (splitWs clean).toFinset \ stop_words.toFinset

/-! ## Data model

`Article` models the JSON dicts stored in `news.json` and the record built
by `process_item` (src/main.py:327-338); every field is optional because
on-disk items are arbitrary JSON objects accessed with `.get`. -/

/-- Value of a `summary` key: the code branches on
`isinstance(summary_raw, str)` (src/main.py:395). -/
inductive SummaryVal where
  | str : String → SummaryVal
  | list : List String → SummaryVal
deriving DecidableEq

structure Article where
  title_fa : Option String := none
  title_en : Option String := none
  summary : Option SummaryVal := none
  impact : Option String := none
  tag : Option String := none
  urgency : Option Int := none
  source : Option String := none
  url : Option String := none
  image : Option String := none
  timestamp : Option ℚ := none
  /-- disk items may carry a `title` key, consulted by the fuzzy judge -/
  title : Option String := none
  /-- a `sentiment` key: `process_item` never writes one -/
  sentiment : Option ℚ := none
deriving DecidableEq

/-- A raw fetched candidate entry (the dicts built by the fetchers,
src/main.py:144-151, 188-195); `publisher_title` flattens
`entry.get('publisher', {}).get('title', 'Unknown')`. -/
structure Entry where
  title : Option String := none
  url : Option String := none
  publisher_title : Option String := none
  description : Option String := none
  published_date : Option String := none
  image : Option String := none
deriving DecidableEq

/-! ## Fuzzy duplicate judge (src/main.py:72-88) -/

/-- `item.get('title', item.get('title_en', ''))` (src/main.py:77). -/
def poolTitle (item : Article) : String :=
  item.title.getD (item.title_en.getD "")

/-- Body of the comparison loop of `_is_duplicate_fuzzy` for one pool item
(src/main.py:76-87).  `similarity > 0.35` with
`similarity = |inter| / |union|` is the exact rational comparison
`20 * |inter| > 7 * |union|`. -/
def fuzzyMatch (new_tokens : Finset String) (item : Article) : Bool :=
  let existing_tokens := get_tokens (poolTitle item)
  if existing_tokens = ∅ then false
  else
    let inter := (new_tokens ∩ existing_tokens).card
    let un := (new_tokens ∪ existing_tokens).card
    if un = 0 then false
    else decide (7 * un < 20 * inter) || decide (4 ≤ inter)

/-- `_is_duplicate_fuzzy` (src/main.py:72-88).  The Python `for` loop with
an early `return True` is `List.any`. -/
def is_duplicate_fuzzy (new_title : String) (comparison_pool : List Article) : Bool :=
  let new_tokens := get_tokens new_title
  if new_tokens = ∅ then false
  else comparison_pool.any (fuzzyMatch new_tokens)

/-! ## Batch-level dedup loop of `run` (src/main.py:436-443) -/

/-- One iteration of the `for item in results` loop: drop the item when its
stripped title is a fuzzy duplicate of the (frozen) persisted corpus, or
when the exact stripped title was already seen in this batch;
`seen_batch` (a Python `set` of strings) is modelled as the list of
stripped titles accepted so far. -/
def dedupStep (existing_news : List Article)
    (acc : List Entry × List String) (item : Entry) : List Entry × List String :=
  let t := stripSourceSuffix (item.title.getD "")
  if is_duplicate_fuzzy t existing_news then acc
  else if t ∈ acc.2 then acc
  else (acc.1 ++ [item], acc.2 ++ [t])

/-- The whole dedup loop: returns `unique_batch_results`. -/
def dedupBatch (existing_news : List Article) (results : List Entry) : List Entry :=
  (results.foldl (dedupStep existing_news) ([], [])).1

/-! ## AI analysis call (src/main.py:241-297)

The network exchange of one retry attempt is modelled by an `AIResp`
oracle value: a non-200 status, a body that fails `json.loads` (or the
field check raising inside the `try`), or a parsed payload. -/

/-- A JSON scalar as it may appear under the `urgency` key of a payload. -/
inductive AIVal where
  | str : String → AIVal
  | num : ℚ → AIVal
  | null : AIVal
deriving DecidableEq

/-- The parsed analysis payload; `none` fields model absent keys.  (The
prompt also requests a `sentiment` field; the code never reads it after
parsing, but it may be present in the payload.) -/
structure AIData where
  title_fa : Option String := none
  summary : Option SummaryVal := none
  impact : Option String := none
  tag : Option String := none
  urgency : Option AIVal := none
  sentiment : Option ℚ := none
deriving DecidableEq

/-- Outcome of one HTTP attempt inside the retry loop. -/
inductive AIResp where
  | httpError : Nat → AIResp
  | badJson : AIResp
  | ok : AIData → AIResp
deriving DecidableEq

/-- Python truthiness of an optional string (`if not self.api_key`,
`if not data.get('title_fa')`): absent and empty are falsy. -/
def strOptTruthy : Option String → Bool
  | none => false
  | some s => s ≠ ""

/-- Python truthiness of an optional summary value
(`if not data.get('summary')`). -/
def summaryOptTruthy : Option SummaryVal → Bool
  | none => false
  | some (.str s) => s ≠ ""
  | some (.list l) => !l.isEmpty

/-- One attempt of the retry loop (src/main.py:267-295): a 200 response
with parsable JSON whose `title_fa` and `summary` are truthy yields the
payload; everything else (non-200 status, `json.loads` failure, the
`ValueError` raised on empty fields) is a failed attempt. -/
def attemptValid : AIResp → Option AIData
  | .ok d => if strOptTruthy d.title_fa && summaryOptTruthy d.summary then some d else none
  | .httpError _ => none
  | .badJson => none

/-- `for attempt in range(n)`: run up to `n` attempts, consuming one oracle
response per attempt, returning the first valid payload. -/
def runAttempts : Nat → List AIResp → Option AIData
  | 0, _ => none
  | _ + 1, [] => none
  | n + 1, r :: rest =>
    match attemptValid r with
    | some d => some d
    | none => runAttempts n rest

/-- `CONFIG['AI_RETRIES']` (src/main.py:37). -/
def CONFIG_AI_RETRIES : Nat := 3

/-- `analyze_with_ai` (src/main.py:241-297): without a truthy API key the
call returns `None` up front; otherwise the bounded retry loop runs and a
fully failed loop falls through to `return None`. -/
def analyze_with_ai (api_key : Option String) (resps : List AIResp) : Option AIData :=
  if strOptTruthy api_key then runAttempts CONFIG_AI_RETRIES resps else none

/-! ## Urgency coercion and record assembly (src/main.py:299-338) -/

/-- Truncation toward zero, the behaviour of Python `int()` on a float. -/
def ratTrunc (q : ℚ) : Int :=
  if 0 ≤ q then ⌊q⌋ else ⌈q⌉

/-- Python `int(str)`: optional surrounding whitespace, optional sign,
then a nonempty run of decimal digits; anything else raises `ValueError`.
(Underscore separators and non-ASCII digits are not modelled.) -/
def pyIntOfString (s : String) : Option Int :=
  let t := s.data.filter (fun c => !isPySpace c)
  let core : Option (Int × List Char) :=
    match t with
    | '+' :: rest => some (1, rest)
    | '-' :: rest => some (-1, rest)
    | l => some (1, l)
  match core with
  | some (sign, digits) =>
    if digits ≠ [] ∧ digits.all Char.isDigit then
      some (sign * (digits.foldl (fun n c => n * 10 + (c.toNat - '0'.toNat)) 0 : Nat))
    else none
  | none => none

/-- Python `int(v)` on a JSON value: numbers truncate toward zero, strings
are parsed, `None` raises `TypeError`; `none` models the raised exception. -/
def pyInt : AIVal → Option Int
  | .num q => some (ratTrunc q)
  | .str s => pyIntOfString s
  | .null => none

/-- The `try: urgency_val = int(ai.get('urgency', 3)) except (ValueError,
TypeError): urgency_val = 3` block (src/main.py:318-322). -/
def coerceUrgency (ai : AIData) : Int :=
  match ai.urgency with
  | none => 3
  | some v => (pyInt v).getD 3

/-- Results of the external calls threaded through `process_item`:
`resolved` is `_resolve_final_url(entry.get('url'))`, `ai` the result of
`analyze_with_ai`, `parsed_ts` the `parser.parse(...).timestamp()` value
(or `none` when that raises), `now` is `time.time()`.  The scraped page
text is not modelled: it only feeds the AI call, whose outcome `ai`
already is. -/
structure Oracles where
  resolved : Option String := none
  ai : Option AIData := none
  parsed_ts : Option ℚ := none
  now : ℚ := 0
deriving DecidableEq

/-- `process_item` (src/main.py:299-338): strip the title, gate on the
seen-URL and seen-normalized-title sets, require an AI payload, coerce
urgency, fall back to `time.time()` for an unparsable date, and assemble
the record dict.  The dict literal has no `sentiment` key, so the
`sentiment` field of the result is always `none`. -/
def process_item (seen_urls : List (Option String)) (seen_titles : List String)
    (entry : Entry) (o : Oracles) : Option Article :=
  let raw_title := stripSourceSuffix (entry.title.getD "")
  let publisher := entry.publisher_title.getD "Unknown"
  let image_url := entry.image
  let final_url := o.resolved
  if final_url ∈ seen_urls then none
  else if normalize_text raw_title ∈ seen_titles then none
  else
    let snippet := entry.description.getD raw_title
    match o.ai with
    | none => none
    | some ai =>
      let urgency_val := coerceUrgency ai
      let ts := o.parsed_ts.getD o.now
      some
        { title_fa := some (ai.title_fa.getD raw_title)
          title_en := some raw_title
          summary := some (ai.summary.getD (.list [snippet]))
          impact := some (ai.impact.getD "...")
          tag := some (ai.tag.getD "General")
          urgency := some urgency_val
          source := some publisher
          url := final_url
          image := image_url
          timestamp := some ts
          title := none
          sentiment := none }

/-! ## Save-time corpus merge (src/main.py:463-471)

Python `list.sort(key=..., reverse=True)` is a *stable* descending sort by
the key; `List.insertionSort r` with `r a b := key b ≤ key a` is exactly
that: it is a permutation, it is sorted for `r`, and elements with equal
keys keep their original relative order. -/

/-- `x.get('timestamp', 0)` (src/main.py:469). -/
def tsKey (a : Article) : ℚ :=
  a.timestamp.getD 0

/-- The comparison used by `all_news.sort(key=lambda x:
x.get('timestamp', 0), reverse=True)`. -/
def tsDescR (a b : Article) : Prop :=
  tsKey b ≤ tsKey a

instance : DecidableRel tsDescR := fun a b => inferInstanceAs (Decidable (tsKey b ≤ tsKey a))

instance : IsTotal Article tsDescR := ⟨fun a b => le_total (tsKey b) (tsKey a)⟩

instance : IsTrans Article tsDescR := ⟨fun _ _ _ h h' => le_trans h' h⟩

/-- Stable descending sort by timestamp. -/
def sortByTsDesc (l : List Article) : List Article :=
  l.insertionSort tsDescR

/-- `CONFIG`-level corpus cap: `json.dump(all_news[:100], ...)`
(src/main.py:471). -/
def CORPUS_CAP : Nat := 100

/-- The list `all_news` right before sorting: the re-read on-disk corpus
followed by those new items whose `url` value is not among the on-disk
`url` values (`existing_urls_file` is computed once, before the append
loop; src/main.py:463-467). -/
def mergeUnion (disk new_items : List Article) : List Article :=
  disk ++ new_items.filter (fun ni => decide (ni.url ∉ disk.map Article.url))

/-- The complete save-time merge (src/main.py:463-471): filter by on-disk
URL, stable-sort descending by timestamp, truncate to the cap. -/
def mergeCorpus (disk new_items : List Article) : List Article :=
  (sortByTsDesc (mergeUnion disk new_items)).take CORPUS_CAP

/-! ## Digest ordering (src/main.py:460) -/

/-- `x.get('urgency', 0)` (src/main.py:460). -/
def urgKey (a : Article) : Int :=
  a.urgency.getD 0

/-- The comparison of `new_items.sort(key=lambda x: x.get('urgency', 0),
reverse=True)`: urgency alone, no secondary key. -/
def urgDescR (a b : Article) : Prop :=
  urgKey b ≤ urgKey a

instance : DecidableRel urgDescR := fun a b => inferInstanceAs (Decidable (urgKey b ≤ urgKey a))

instance : IsTotal Article urgDescR := ⟨fun a b => le_total (urgKey b) (urgKey a)⟩

instance : IsTrans Article urgDescR := ⟨fun _ _ _ h h' => le_trans h' h⟩

/-- The digest ordering applied to `new_items` before
`send_digest_to_telegram` (src/main.py:460): a stable descending sort by
urgency only. -/
def sortDigestItems (items : List Article) : List Article :=
  items.insertionSort urgDescR

/-! ## Digest rendering (src/main.py:378-409) -/

/-- `html.escape(s)` with `quote=True` (the default): `&`, `<`, `>`, `"`
and `'` become entities; per-character mapping is equivalent to the
sequential replacements (`&` is replaced first). -/
def escapeChar (c : Char) : List Char :=
  if c = '&' then "&amp;".data
  else if c = '<' then "&lt;".data
  else if c = '>' then "&gt;".data
  else if c = '"' then "&quot;".data
  else if c = '\'' then "&#x27;".data
  else [c]

def escapeList : List Char → List Char
  | [] => []
  | c :: cs => escapeChar c ++ escapeList cs

/-- `html.escape` (quote=True). -/
def htmlEscape (s : String) : String :=
  ⟨escapeList s.data⟩

/-- Python `pat in s` for a fixed pattern: substring containment. -/
def strContainsSub (s pat : String) : Bool :=
  let rec go : List Char → Bool
    | [] => leadsWith pat.data []
    | c :: cs => leadsWith pat.data (c :: cs) || go cs
  go s.data

/-- The state-media marker test `any(x in source.lower() for x in
['tasnim', 'fars', 'irna', 'press', 'mehr'])` (src/main.py:390). -/
def isRegimeSource (source : String) : Bool :=
  ["tasnim", "fars", "irna", "press", "mehr"].any
    (fun x => strContainsSub (pyLower source) x)

/-- Python `str.replace(old, new)` for the single-character swap
`\x7bsafe_tag\x7d.replace(' ', '_')` (src/main.py:407). -/
def replaceSpaces (s : String) : String :=
  ⟨s.data.map (fun c => if c = ' ' then '_' else c)⟩

/-- The `item_html` block built for one item in the digest loop
(src/main.py:378-409).  `str(item.get('title_fa', item.get('title_en')))`
stringifies a missing fallback to `"None"`.  Title, source, summary
bullets, impact and tag go through `html.escape`; the article URL and the
hidden-preview image URL are interpolated raw. -/
def render_item (item : Article) : String :=
  let title := match item.title_fa with
    | some t => t
    | none => match item.title_en with
      | some t => t
      | none => "None"
  let source := item.source.getD "Unknown"
  let url := item.url.getD ""
  let impact := item.impact.getD ""
  let urgency := item.urgency.getD 3
  let img_link := item.image.getD ""
  let icon := if urgency ≥ 8 then "🚨" else if urgency ≥ 6 then "⚠️" else "🔹"
  let safe_source := htmlEscape source ++ (if isRegimeSource source then " (State Media 🚫)" else "")
  let summary_raw : List String := match item.summary with
    | none => []
    | some (.str s) => [s]
    | some (.list l) => l
  let safe_summary := String.intercalate "\n" (summary_raw.map (fun s => "▪️ " ++ htmlEscape s))
  let hidden_image := if img_link ≠ "" then "<a href='" ++ img_link ++ "'>&#8205;</a>" else ""
  icon ++ " " ++ hidden_image ++ "<b><a href='" ++ url ++ "'>" ++ htmlEscape title ++ "</a></b>\n" ++
  "🗞 <i>منبع: " ++ safe_source ++ "</i>\n\n" ++
  "📝 <b>تحلیل:</b>\n" ++ safe_summary ++ "\n\n" ++
  "🎯 <b>تأثیر:</b> " ++ htmlEscape impact ++ "\n\n" ++
  "#" ++ replaceSpaces (htmlEscape (item.tag.getD "General")) ++ "\n" ++
  "〰️〰️〰️〰️〰️〰️〰️\n\n"

/-- Modelled from the spec: the same item block with *all* user-supplied
text escaped, including the embedded article URL and image URL ("all
user-supplied text HTML/markup-escaped before embedding").  Used as the
reference rendering the spec claims `render_item` implements. -/
def render_item_specEscaped (item : Article) : String :=
  let title := match item.title_fa with
    | some t => t
    | none => match item.title_en with
      | some t => t
      | none => "None"
  let source := item.source.getD "Unknown"
  let url := htmlEscape (item.url.getD "")
  let impact := item.impact.getD ""
  let urgency := item.urgency.getD 3
  let img_link := htmlEscape (item.image.getD "")
  let icon := if urgency ≥ 8 then "🚨" else if urgency ≥ 6 then "⚠️" else "🔹"
  let safe_source := htmlEscape source ++ (if isRegimeSource source then " (State Media 🚫)" else "")
  let summary_raw : List String := match item.summary with
    | none => []
    | some (.str s) => [s]
    | some (.list l) => l
  let safe_summary := String.intercalate "\n" (summary_raw.map (fun s => "▪️ " ++ htmlEscape s))
  let hidden_image := if img_link ≠ "" then "<a href='" ++ img_link ++ "'>&#8205;</a>" else ""
  icon ++ " " ++ hidden_image ++ "<b><a href='" ++ url ++ "'>" ++ htmlEscape title ++ "</a></b>\n" ++
  "🗞 <i>منبع: " ++ safe_source ++ "</i>\n\n" ++
  "📝 <b>تحلیل:</b>\n" ++ safe_summary ++ "\n\n" ++
  "🎯 <b>تأثیر:</b> " ++ htmlEscape impact ++ "\n\n" ++
  "#" ++ replaceSpaces (htmlEscape (item.tag.getD "General")) ++ "\n" ++
  "〰️〰️〰️〰️〰️〰️〰️\n\n"

/-! ## Digest chunking (src/main.py:375-418) -/

/-- The message-size guard constant of src/main.py:411. -/
def CHUNK_LIMIT : Nat := 3900

/-- One iteration of the chunking loop over a rendered item block
(src/main.py:411-415): when header-buffer + block + footer would exceed
the limit, flush the buffer (with footer) as a message and restart the
buffer from header + block; otherwise append the block. -/
def chunkStep (header footer : String) (acc : List String × String) (block : String) :
    List String × String :=
  if CHUNK_LIMIT < acc.2.length + block.length + footer.length then
    (acc.1 ++ [acc.2 ++ footer], header ++ block)
  else (acc.1, acc.2 ++ block)

/-- The chunking pass of `send_digest_to_telegram` (src/main.py:375-418)
over the already-rendered item blocks: fold the loop from the header-only
buffer, then flush the final buffer unless it still holds only the
header.  Returns `messages_to_send`. -/
def chunkMessages (header footer : String) (blocks : List String) : List String :=
  let r := blocks.foldl (chunkStep header footer) ([], header)
  if r.2 ≠ header then r.1 ++ [r.2 ++ footer] else r.1

/-- The digest messages for a list of items (the loop of
src/main.py:378-415 computes `render_item` inline for each item). -/
def build_digest_messages (header footer : String) (items : List Article) : List String :=
  chunkMessages header footer (items.map render_item)

/-- Concrete corpus data for the C8 counterexample: 99 distinct recent
articles plus an old article whose URL reappears in the batch. -/
def bulk99 : List Article :=
  (List.range 99).map (fun i => { url := some ("u" ++ toString i), timestamp := some ((108 - (i : Int) : Int) : ℚ) })

def diskX : List Article := bulk99 ++ [{ url := some "dup", timestamp := some 0 }]

def batchX : List Article :=
  [{ url := some "dup", timestamp := some 1000 }, { url := some "fresh", timestamp := some 500 }]

/-! ## Theorems -/

/-- Helper for C1: what the loop body decides for a single pool item, given
a nonempty query token set. -/
theorem fuzzyMatch_eq_true_iff (nt : Finset String) (hnt : nt ≠ ∅) (item : Article) :
    (fuzzyMatch nt item = true ↔
      get_tokens (poolTitle item) ≠ ∅ ∧
        (7 * ((nt ∪ get_tokens (poolTitle item)).card) <
            20 * ((nt ∩ get_tokens (poolTitle item)).card) ∨
          4 ≤ (nt ∩ get_tokens (poolTitle item)).card)) := by
  unfold fuzzyMatch
  by_cases he : get_tokens (poolTitle item) = ∅
  · simp [he]
  · have hun : (nt ∪ get_tokens (poolTitle item)).card ≠ 0 := by
      rw [Ne, Finset.card_eq_zero, Finset.union_eq_empty]
      exact fun h => hnt h.1
    simp only [if_neg he, if_neg hun, Bool.or_eq_true, decide_eq_true_eq]
    tauto

/-- Claim C1: `_is_duplicate_fuzzy(title, pool)` returns `True` exactly
when some pool candidate with a nonempty token set has Jaccard similarity
with the title's token set strictly above `0.35` (as a ratio of set sizes,
`20·|∩| > 7·|∪|`) or a raw intersection of size at least `4`; an empty
title token set always gives `False`; and a matching head candidate
already decides the scan regardless of the rest of the pool
(short-circuit). -/
theorem fuzzy_duplicate_characterization (title : String) (pool : List Article) :
    (is_duplicate_fuzzy title pool = true ↔
      get_tokens title ≠ ∅ ∧ ∃ item ∈ pool,
        get_tokens (poolTitle item) ≠ ∅ ∧
          (7 * ((get_tokens title ∪ get_tokens (poolTitle item)).card) <
              20 * ((get_tokens title ∩ get_tokens (poolTitle item)).card) ∨
            4 ≤ (get_tokens title ∩ get_tokens (poolTitle item)).card)) ∧
    (get_tokens title = ∅ → is_duplicate_fuzzy title pool = false) ∧
    (∀ item rest, get_tokens title ≠ ∅ → fuzzyMatch (get_tokens title) item = true →
      is_duplicate_fuzzy title (item :: rest) = true) := by
  refine ⟨?_, ?_, ?_⟩
  · show (if get_tokens title = ∅ then false
        else pool.any (fuzzyMatch (get_tokens title))) = true ↔ _
    by_cases hnt : get_tokens title = ∅
    · simp [hnt]
    · rw [if_neg hnt, List.any_eq_true]
      simp only [ne_eq, hnt, not_false_eq_true, true_and]
      constructor
      · rintro ⟨item, hmem, hmatch⟩
        exact ⟨item, hmem, (fuzzyMatch_eq_true_iff _ hnt item).mp hmatch⟩
      · rintro ⟨item, hmem, hcond⟩
        exact ⟨item, hmem, (fuzzyMatch_eq_true_iff _ hnt item).mpr hcond⟩
  · intro h
    show (if get_tokens title = ∅ then false
        else pool.any (fuzzyMatch (get_tokens title))) = false
    rw [if_pos h]
  · intro item rest hnt hmatch
    show (if get_tokens title = ∅ then false
        else (item :: rest).any (fuzzyMatch (get_tokens title))) = true
    rw [if_neg hnt, List.any_cons, hmatch, Bool.true_or]

/-- Witness for C1 at a concrete title and pool: the first candidate shares
four tokens with the title, so the judge fires. -/
theorem fuzzy_duplicate_characterization_witness :
    is_duplicate_fuzzy "iran sanctions economy oil crisis"
      [{ title := some "iran sanctions economy oil markets" }] = true :=
  (fuzzy_duplicate_characterization "iran sanctions economy oil crisis"
      [{ title := some "iran sanctions economy oil markets" }]).2.2
    { title := some "iran sanctions economy oil markets" } [] (by decide) (by decide)

/-- Stripped batch title of an entry, as computed by the dedup loop
(src/main.py:439). -/
def batchTitle (e : Entry) : String :=
  stripSourceSuffix (e.title.getD "")

/-- Concrete batch for C2: the first two candidates share exactly five
non-stop-word tokens (`iran israel nuclear sanctions conflict`) but have
different titles; the third is unrelated. -/
def entA : Entry := { title := some "iran israel nuclear sanctions conflict escalates" }

def entB : Entry := { title := some "iran israel nuclear sanctions conflict deepens worldwide" }

def entC : Entry := { title := some "celtics win basketball championship game" }

/-- Counterexample to claim C2: with an empty persisted corpus, a batch of
three candidates in which items 1 and 2 share five overlapping
non-stop-word tokens and item 3 is unrelated leaves **three** survivors,
not two: the batch-internal check of the dedup loop (src/main.py:441) is
exact stripped-title equality against `seen_batch`, not a second
application of the fuzzy engine, so the near-duplicate pair does not
collapse. -/
theorem batch_dedup_scenario_refuted :
    (get_tokens (batchTitle entA) ∩ get_tokens (batchTitle entB)).card = 5 ∧
    (get_tokens (batchTitle entA) ∩ get_tokens (batchTitle entC)).card = 0 ∧
    (get_tokens (batchTitle entB) ∩ get_tokens (batchTitle entC)).card = 0 ∧
    dedupBatch [] [entA, entB, entC] = [entA, entB, entC] ∧
    (dedupBatch [] [entA, entB, entC]).length ≠ 2 := by
  decide

/-- Claim C2 (amended): per batch candidate the fuzzy engine is applied
once, against the *frozen* persisted corpus; the batch-internal check is
exact equality of stripped titles against the titles accepted earlier in
the batch.  Hence in a three-candidate batch of corpus-fresh items, all
three survive whenever their stripped titles are pairwise distinct (even
if two of them overlap heavily token-wise), and a pair with *identical*
stripped titles collapses to the first occurrence. -/
theorem batch_dedup_exact_title_behavior (corpus : List Article) (e1 e2 e3 : Entry)
    (h1 : is_duplicate_fuzzy (batchTitle e1) corpus = false)
    (h2 : is_duplicate_fuzzy (batchTitle e2) corpus = false)
    (h3 : is_duplicate_fuzzy (batchTitle e3) corpus = false) :
    (batchTitle e2 ≠ batchTitle e1 → batchTitle e3 ≠ batchTitle e1 →
      batchTitle e3 ≠ batchTitle e2 → dedupBatch corpus [e1, e2, e3] = [e1, e2, e3]) ∧
    (batchTitle e2 = batchTitle e1 → batchTitle e3 ≠ batchTitle e1 →
      dedupBatch corpus [e1, e2, e3] = [e1, e3]) := by
  constructor
  · intro h21 h31 h32
    simp [dedupBatch, dedupStep, batchTitle] at h1 h2 h3 ⊢
    simp [h1, h2, h3, batchTitle] at *
    simp_all [batchTitle]
  · intro h21 h31
    simp_all [dedupBatch, dedupStep, batchTitle]

/-- Witness for the amended C2 statement at the concrete batch. -/
theorem batch_dedup_exact_title_behavior_witness :
    dedupBatch [] [entA, entB, entC] = [entA, entB, entC] :=
  (batch_dedup_exact_title_behavior [] entA entB entC (by decide) (by decide) (by decide)).1
    (by decide) (by decide) (by decide)

/-- Claim C10: with no API key the analysis call returns `None` up front;
with a key but all (at most `AI_RETRIES = 3`) attempts failing —
non-200 status, unparsable body, or missing `title_fa`/`summary`
fields — it also returns `None`; and `process_item` maps an absent
analysis to `None`, i.e. the item is dropped; no fallback record is ever
assembled from the raw title and snippet. -/
theorem ai_failure_drops_item :
    (∀ resps, analyze_with_ai none resps = none) ∧
    (∀ resps, analyze_with_ai (some "") resps = none) ∧
    (∀ key resps, (∀ r ∈ resps, attemptValid r = none) →
      analyze_with_ai key resps = none) ∧
    (∀ seen_urls seen_titles entry o, o.ai = none →
      process_item seen_urls seen_titles entry o = none) := by
  have hrun : ∀ (n : Nat) (resps : List AIResp), (∀ r ∈ resps, attemptValid r = none) →
      runAttempts n resps = none := by
    intro n
    induction n with
    | zero => intro resps _; rfl
    | succ n ih =>
      intro resps hall
      cases resps with
      | nil => rfl
      | cons r rest =>
        have hr : attemptValid r = none := hall r (by simp)
        show (match attemptValid r with
          | some d => some d
          | none => runAttempts n rest) = none
        rw [hr]
        exact ih rest (fun x hx => hall x (by simp [hx]))
  refine ⟨fun resps => rfl, fun resps => rfl, ?_, ?_⟩
  · intro key resps hall
    unfold analyze_with_ai
    cases hk : strOptTruthy key
    · simp
    · simp only [if_pos rfl]
      exact hrun _ _ hall
  · intro seen_urls seen_titles entry o hai
    unfold process_item
    rw [hai]
    split
    · simp
    · rename_i ai heq
      exact Option.noConfusion heq

/-- Witness for C10: a configured key with three failing attempts, and a
worker invocation with no analysis payload, both yield `None`. -/
theorem ai_failure_drops_item_witness :
    analyze_with_ai (some "k") [.httpError 500, .badJson, .ok {}] = none ∧
    process_item [] [] { title := some "T" } { resolved := some "u" } = none := by
  constructor
  · exact ai_failure_drops_item.2.2.1 (some "k") [.httpError 500, .badJson, .ok {}] (by decide)
  · exact ai_failure_drops_item.2.2.2 [] [] { title := some "T" } { resolved := some "u" } rfl

/-- Helper for C5/C9: whenever `process_item` accepts an item, the
produced record's `urgency` is exactly the coerced payload urgency and the
record has no `sentiment` key. -/
theorem process_item_record (seen_urls : List (Option String)) (seen_titles : List String)
    (entry : Entry) (o : Oracles) (d : AIData) (rec : Article)
    (hai : o.ai = some d) (hrec : process_item seen_urls seen_titles entry o = some rec) :
    rec.urgency = some (coerceUrgency d) ∧ rec.sentiment = none := by
  unfold process_item at hrec
  simp only [hai] at hrec
  split at hrec
  · exact Option.noConfusion hrec
  · split at hrec
    · exact Option.noConfusion hrec
    · rw [Option.some.injEq] at hrec
      subst hrec
      exact ⟨rfl, rfl⟩

/-- Concrete inputs for the C5/C9 counterexamples: a well-formed payload
whose urgency is the number `99` and which carries no sentiment key. -/
def payload99 : AIData :=
  { title_fa := some "t", summary := some (.list ["s"]), urgency := some (.num 99) }

def entry99 : Entry := { title := some "Example title", description := some "snippet" }

def oracle99 : Oracles :=
  { resolved := some "http://x", ai := some payload99, parsed_ts := some 5, now := 0 }

/-- Counterexample to claim C5: an analysis payload with the numeric
urgency `99` produces a record whose urgency is `99` — an integer far
outside the range 1–10; the `try/except` of src/main.py:318-322 only
guards the `int()` conversion and never clamps. -/
theorem urgency_range_counterexample :
    (process_item [] [] entry99 oracle99).map Article.urgency = some (some 99) ∧
    ¬ ((1 : Int) ≤ 99 ∧ (99 : Int) ≤ 10) := by
  refine ⟨by decide, by decide⟩

/-- Claim C5 (amended): the urgency of an assembled record is always the
safe integer coercion of the payload urgency: a missing key, a
non-numeric string such as `"high"`, or a `null` all yield the fallback
`3` instead of a crash — but numeric values are passed through unclamped,
so the result need not lie in 1–10. -/
theorem urgency_coercion_amended (seen_urls : List (Option String)) (seen_titles : List String)
    (entry : Entry) (o : Oracles) (d : AIData) (rec : Article)
    (hai : o.ai = some d) (hrec : process_item seen_urls seen_titles entry o = some rec) :
    rec.urgency = some (coerceUrgency d) ∧
    (d.urgency = none → rec.urgency = some 3) ∧
    (d.urgency = some (.str "high") → rec.urgency = some 3) ∧
    (∀ s, d.urgency = some (.str s) → pyIntOfString s = none → rec.urgency = some 3) ∧
    (d.urgency = some .null → rec.urgency = some 3) := by
  have h := (process_item_record seen_urls seen_titles entry o d rec hai hrec).1
  refine ⟨h, ?_, ?_, ?_, ?_⟩
  · intro hu; rw [h]; unfold coerceUrgency; rw [hu]
  · intro hu; rw [h]; unfold coerceUrgency; rw [hu]; decide
  · intro s hu hs; rw [h]; unfold coerceUrgency; rw [hu]
    show some ((pyIntOfString s).getD 3) = some 3
    rw [hs]
    rfl
  · intro hu; rw [h]; unfold coerceUrgency; rw [hu]; decide

/-- Inputs for the C5 witness: the payload urgency is the non-numeric
string `"high"`; the resulting record (spelled out) carries urgency 3. -/
def payloadHigh : AIData :=
  { title_fa := some "t", summary := some (.list ["s"]), urgency := some (.str "high") }

def oracleHigh : Oracles :=
  { resolved := some "http://x", ai := some payloadHigh, parsed_ts := some 5, now := 0 }

def recHigh : Article :=
  { title_fa := some "t", title_en := some "Example title", summary := some (.list ["s"]),
    impact := some "...", tag := some "General", urgency := some 3, source := some "Unknown",
    url := some "http://x", image := none, timestamp := some 5 }

/-- Witness for the amended C5 statement: the `"high"` payload yields a
record with urgency 3. -/
theorem urgency_coercion_amended_witness : recHigh.urgency = some 3 :=
  (urgency_coercion_amended [] [] entry99 oracleHigh payloadHigh recHigh rfl
    (by decide)).2.2.1 rfl

/-- Counterexample to claim C9: a record assembled from a payload *without*
a sentiment key has no sentiment field at all (`none`), not the claimed
default `0` — the dict literal of src/main.py:327-338 has no `sentiment`
key. -/
theorem sentiment_absent_counterexample :
    (process_item [] [] entry99 oracle99).map Article.sentiment = some none ∧
    some (none : Option ℚ) ≠ some (some (0 : ℚ)) := by
  refine ⟨by decide, by decide⟩

/-- Claim C9 (amended): urgency is coerced safely (missing or invalid
yields 3), but no record ever carries a sentiment value: the assembled
record's sentiment field is always absent, whatever the payload held. -/
theorem record_assembly_amended (seen_urls : List (Option String)) (seen_titles : List String)
    (entry : Entry) (o : Oracles) (d : AIData) (rec : Article)
    (hai : o.ai = some d) (hrec : process_item seen_urls seen_titles entry o = some rec) :
    rec.urgency = some (coerceUrgency d) ∧
    (d.urgency = none → rec.urgency = some 3) ∧
    rec.sentiment = none := by
  have h := process_item_record seen_urls seen_titles entry o d rec hai hrec
  refine ⟨h.1, ?_, h.2⟩
  intro hu; rw [h.1]; unfold coerceUrgency; rw [hu]

/-- Witness for the amended C9 statement. -/
theorem record_assembly_amended_witness : recHigh.sentiment = none :=
  (record_assembly_amended [] [] entry99 oracleHigh payloadHigh recHigh rfl (by decide)).2.2

/-- Two digest items with equal urgency; the first has the *earlier*
timestamp. -/
def dItemA : Article := { urgency := some 5, timestamp := some 10 }

def dItemB : Article := { urgency := some 5, timestamp := some 20 }

/-- Counterexample to claim C6: the digest sort
(`new_items.sort(key=lambda x: x.get('urgency', 0), reverse=True)`,
src/main.py:460) uses urgency alone.  Being stable, it leaves two
equal-urgency items in input order, so the item with the *later*
timestamp stays second — the claimed lexicographic
(urgency desc, timestamp desc) ordering is violated. -/
theorem digest_order_counterexample :
    sortDigestItems [dItemA, dItemB] = [dItemA, dItemB] ∧
    urgKey dItemA = urgKey dItemB ∧
    tsKey dItemA < tsKey dItemB ∧
    ¬ List.Pairwise
        (fun a b => urgKey b < urgKey a ∨ (urgKey b = urgKey a ∧ tsKey b ≤ tsKey a))
        (sortDigestItems [dItemA, dItemB]) := by
  decide

/-- Helper for C6: filtering one urgency class commutes with an ordered
insert for the urgency comparison. -/
theorem filter_orderedInsert_urg (u : Int) (a : Article) (l : List Article) :
    (l.orderedInsert urgDescR a).filter (fun x => decide (urgKey x = u)) =
      if urgKey a = u then a :: l.filter (fun x => decide (urgKey x = u))
      else l.filter (fun x => decide (urgKey x = u)) := by
  induction l with
  | nil =>
    by_cases hau : urgKey a = u <;> simp [List.orderedInsert, List.filter, hau]
  | cons b t ih =>
    show (if urgDescR a b then a :: b :: t else b :: t.orderedInsert urgDescR a).filter _ = _
    by_cases hab : urgDescR a b
    · rw [if_pos hab]
      by_cases hau : urgKey a = u <;> simp [hau, List.filter_cons]
    · rw [if_neg hab, List.filter_cons]
      by_cases hau : urgKey a = u
      · have hbu : ¬ (urgKey b = u) := by
          intro hb
          exact hab (le_of_eq (hb.trans hau.symm))
        simp [hau, hbu, ih, List.filter_cons]
      · by_cases hbu : urgKey b = u <;> simp [hau, hbu, ih, List.filter_cons]

/-- Helper for C6: the urgency sort is stable — each urgency class keeps
its original relative order. -/
theorem filter_sortDigestItems (u : Int) (l : List Article) :
    (sortDigestItems l).filter (fun x => decide (urgKey x = u)) =
      l.filter (fun x => decide (urgKey x = u)) := by
  induction l with
  | nil => rfl
  | cons b t ih =>
    unfold sortDigestItems at ih
    show ((t.insertionSort urgDescR).orderedInsert urgDescR b).filter _ = _
    rw [filter_orderedInsert_urg]
    by_cases hbu : urgKey b = u <;> simp [hbu, ih, List.filter_cons]

/-- Claim C6 (amended): the digest presents the newly accepted items
sorted by descending urgency **only**: the result is a permutation of the
input, consecutive items have non-increasing urgency keys, and within one
urgency class the original (completion) order is preserved; the timestamp
is not consulted. -/
theorem digest_sort_amended (items : List Article) :
    (sortDigestItems items).Perm items ∧
    List.Pairwise urgDescR (sortDigestItems items) ∧
    (∀ u : Int, (sortDigestItems items).filter (fun x => decide (urgKey x = u)) =
      items.filter (fun x => decide (urgKey x = u))) :=
  ⟨List.perm_insertionSort urgDescR items, List.sorted_insertionSort urgDescR items,
    fun u => filter_sortDigestItems u items⟩

/-- Claim C3: the save-time merge appends exactly those new articles whose
URL value is not already present in the re-read file, stable-sorts the
result descending by timestamp, and truncates it to the cap (100): the
written corpus has length `min 100 |union|` (hence at most 100), is
descending in timestamp, and splits the union into the kept part and a
dropped part every element of which is no more recent than any kept
element — the kept items are exactly a most-recent-by-timestamp selection
of the union. -/
theorem merge_cap_and_recency (disk new_items : List Article) :
    (∀ x, x ∈ mergeUnion disk new_items ↔
      x ∈ disk ∨ (x ∈ new_items ∧ x.url ∉ disk.map Article.url)) ∧
    (mergeCorpus disk new_items).length = min CORPUS_CAP (mergeUnion disk new_items).length ∧
    (mergeCorpus disk new_items).length ≤ CORPUS_CAP ∧
    List.Pairwise tsDescR (mergeCorpus disk new_items) ∧
    ∃ dropped,
      (mergeCorpus disk new_items ++ dropped).Perm (mergeUnion disk new_items) ∧
      ∀ x ∈ dropped, ∀ y ∈ mergeCorpus disk new_items, tsKey x ≤ tsKey y := by
  have hperm : (sortByTsDesc (mergeUnion disk new_items)).Perm (mergeUnion disk new_items) :=
    List.perm_insertionSort tsDescR (mergeUnion disk new_items)
  have hsorted : List.Pairwise tsDescR (sortByTsDesc (mergeUnion disk new_items)) :=
    List.sorted_insertionSort tsDescR (mergeUnion disk new_items)
  refine ⟨?_, ?_, ?_, ?_, ?_⟩
  · intro x
    simp [mergeUnion, List.mem_filter]
  · show ((sortByTsDesc (mergeUnion disk new_items)).take CORPUS_CAP).length = _
    rw [List.length_take, hperm.length_eq]
  · show ((sortByTsDesc (mergeUnion disk new_items)).take CORPUS_CAP).length ≤ _
    rw [List.length_take]
    exact Nat.min_le_left _ _
  · exact hsorted.sublist (List.take_sublist _ _)
  · refine ⟨(sortByTsDesc (mergeUnion disk new_items)).drop CORPUS_CAP, ?_, ?_⟩
    · show ((sortByTsDesc (mergeUnion disk new_items)).take CORPUS_CAP ++
        (sortByTsDesc (mergeUnion disk new_items)).drop CORPUS_CAP).Perm _
      rw [List.take_append_drop]
      exact hperm
    · intro x hx y hy
      have h := List.pairwise_append.mp
        (by rw [List.take_append_drop]; exact hsorted :
          List.Pairwise tsDescR ((sortByTsDesc (mergeUnion disk new_items)).take CORPUS_CAP ++
            (sortByTsDesc (mergeUnion disk new_items)).drop CORPUS_CAP))
      exact h.2.2 y hy x hx

/-- Witness for C3 at a concrete disk and batch. -/
theorem merge_cap_and_recency_witness :
    (mergeCorpus [{ url := some "a", timestamp := some 5 }]
      [{ url := some "b", timestamp := some 7 }]).length ≤ CORPUS_CAP :=
  (merge_cap_and_recency [{ url := some "a", timestamp := some 5 }]
    [{ url := some "b", timestamp := some 7 }]).2.2.1

/-- Counterexample to claim C8: a legitimately reachable on-disk corpus of
exactly 100 articles whose oldest entry shares its URL with a recent batch
article.  In the first merge the batch article is suppressed by the
URL-dedup while its on-disk twin is truncated away; re-merging the *same*
batch then re-appends it, so merging twice differs from merging once. -/
theorem merge_idempotence_counterexample :
    diskX.length = 100 ∧
    mergeCorpus (mergeCorpus diskX batchX) batchX ≠ mergeCorpus diskX batchX := by
  exact ⟨by decide, by decide⟩

/-- Claim C8 (amended): the save-time merge is idempotent whenever the
merged union fits within the cap (no truncation occurs); once the cap
truncates, a second merge of the same batch can resurrect a batch article
whose on-disk URL twin was truncated away. -/
theorem merge_idempotent_amended (disk batch : List Article)
    (hfit : (mergeUnion disk batch).length ≤ CORPUS_CAP) :
    mergeCorpus (mergeCorpus disk batch) batch = mergeCorpus disk batch := by
  have hperm : (sortByTsDesc (mergeUnion disk batch)).Perm (mergeUnion disk batch) :=
    List.perm_insertionSort tsDescR (mergeUnion disk batch)
  have hsorted : List.Pairwise tsDescR (sortByTsDesc (mergeUnion disk batch)) :=
    List.sorted_insertionSort tsDescR (mergeUnion disk batch)
  have hlen : (sortByTsDesc (mergeUnion disk batch)).length ≤ CORPUS_CAP := by
    rw [hperm.length_eq]; exact hfit
  have h1 : mergeCorpus disk batch = sortByTsDesc (mergeUnion disk batch) :=
    List.take_of_length_le hlen
  -- every batch article's URL is on disk after the first merge
  have hurl : ∀ b ∈ batch, b.url ∈ (mergeCorpus disk batch).map Article.url := by
    intro b hb
    rw [h1]
    by_cases hmem : b.url ∈ disk.map Article.url
    · rcases List.mem_map.mp hmem with ⟨d, hd, hdu⟩
      exact List.mem_map.mpr ⟨d, hperm.mem_iff.mpr (List.mem_append_left _ hd), hdu⟩
    · have hbU : b ∈ mergeUnion disk batch :=
        List.mem_append_right _ (List.mem_filter.mpr ⟨hb, by simpa using hmem⟩)
      exact List.mem_map.mpr ⟨b, hperm.mem_iff.mpr hbU, rfl⟩
  have h2 : mergeUnion (mergeCorpus disk batch) batch = mergeCorpus disk batch := by
    unfold mergeUnion
    rw [List.filter_eq_nil_iff.mpr ?hnil, List.append_nil]
    case hnil =>
      intro b hb
      simpa using hurl b hb
  have h3 : List.Pairwise tsDescR (mergeCorpus disk batch) := by
    rw [h1]; exact hsorted
  show (sortByTsDesc (mergeUnion (mergeCorpus disk batch) batch)).take CORPUS_CAP = _
  rw [h2]
  have h4 : sortByTsDesc (mergeCorpus disk batch) = mergeCorpus disk batch :=
    List.Sorted.insertionSort_eq h3
  rw [h4]
  apply List.take_of_length_le
  rw [h1]
  exact hlen

/-- Witness for the amended C8 statement: a two-article disk and a
one-article batch below the cap merge idempotently. -/
theorem merge_idempotent_amended_witness :
    mergeCorpus
        (mergeCorpus [{ url := some "a", timestamp := some 5 }] [{ url := some "b", timestamp := some 7 }])
        [{ url := some "b", timestamp := some 7 }] =
      mergeCorpus [{ url := some "a", timestamp := some 5 }] [{ url := some "b", timestamp := some 7 }] :=
  merge_idempotent_amended [{ url := some "a", timestamp := some 5 }]
    [{ url := some "b", timestamp := some 7 }] (by decide)

/-- Witness for the amended C6 statement at a concrete item list. -/
theorem digest_sort_amended_witness :
    (sortDigestItems [dItemA, dItemB]).Perm [dItemA, dItemB] :=
  (digest_sort_amended [dItemA, dItemB]).1

/-! ### C4: digest chunking -/

/-- Concatenation of a list of item blocks. -/
def concatStr (l : List String) : String :=
  l.foldr (· ++ ·) ""

theorem concatStr_cons (a : String) (t : List String) :
    concatStr (a :: t) = a ++ concatStr t := rfl

theorem concatStr_single (b : String) : concatStr [b] = b := by
  rw [concatStr_cons]
  exact String.append_empty b

theorem concatStr_append_single (l : List String) (b : String) :
    concatStr (l ++ [b]) = concatStr l ++ b := by
  induction l with
  | nil =>
    rw [List.nil_append, concatStr_single]
    rfl
  | cons a t ih =>
    rw [List.cons_append, concatStr_cons, ih, concatStr_cons, String.append_assoc]

theorem length_pos_of_ne_empty (s : String) (h : s ≠ "") : 0 < s.length := by
  cases s with
  | mk data =>
    cases data with
    | nil => exact absurd rfl h
    | cons c cs => simp [String.length]

/-- A nonempty group of nonempty blocks concatenates to a nonempty string. -/
theorem concatStr_length_pos (g : List String) (hg : g ≠ [])
    (helts : ∀ b ∈ g, b ≠ "") : 0 < (concatStr g).length := by
  cases g with
  | nil => exact absurd rfl hg
  | cons a t =>
    rw [concatStr_cons, String.length_append]
    have := length_pos_of_ne_empty a (helts a (List.mem_cons_self a t))
    omega

/-- The invariant of the chunking loop (src/main.py:378-415): starting
from a buffer `header ++ concatStr cg` that still fits, and provided every
remaining block individually fits beside header and footer, the loop
flushes a sequence of nonempty groups of consecutive blocks, each fitting
the limit, and ends in a buffer holding the unflushed tail. -/
theorem chunk_loop_spec (header footer : String) :
    ∀ (blocks msgs : List String) (cg : List String),
      (∀ b ∈ blocks, header.length + b.length + footer.length ≤ CHUNK_LIMIT) →
      header.length + (concatStr cg).length + footer.length ≤ CHUNK_LIMIT →
      ∃ (groups : List (List String)) (cg' : List String),
        blocks.foldl (chunkStep header footer) (msgs, header ++ concatStr cg) =
          (msgs ++ groups.map (fun g => (header ++ concatStr g) ++ footer),
            header ++ concatStr cg') ∧
        groups.flatten ++ cg' = cg ++ blocks ∧
        (∀ g ∈ groups, g ≠ []) ∧
        (∀ g ∈ groups, header.length + (concatStr g).length + footer.length ≤ CHUNK_LIMIT) ∧
        header.length + (concatStr cg').length + footer.length ≤ CHUNK_LIMIT := by
  intro blocks
  induction blocks with
  | nil =>
    intro msgs cg _ hinv
    exact ⟨[], cg, by simp, by simp, by simp, by simp, hinv⟩
  | cons b rest ih =>
    intro msgs cg hfits hinv
    have hfb := hfits b (List.mem_cons_self b rest)
    have hfits' : ∀ x ∈ rest, header.length + x.length + footer.length ≤ CHUNK_LIMIT :=
      fun x hx => hfits x (List.mem_cons_of_mem _ hx)
    rw [List.foldl_cons]
    simp only [chunkStep]
    by_cases hover : CHUNK_LIMIT < (header ++ concatStr cg).length + b.length + footer.length
    · rw [if_pos hover]
      have hcg : cg ≠ [] := by
        intro hnil
        subst hnil
        rw [String.length_append] at hover
        have h0 : (concatStr (List.nil (α := String))).length = 0 := rfl
        rw [h0] at hover
        omega
      have hb1 : header ++ b = header ++ concatStr [b] := by rw [concatStr_single]
      rw [hb1]
      have hinv1 : header.length + (concatStr [b]).length + footer.length ≤ CHUNK_LIMIT := by
        rw [concatStr_single]; exact hfb
      obtain ⟨groups, cg', heq, hjoin, hne, hsz, hinv'⟩ :=
        ih (msgs ++ [(header ++ concatStr cg) ++ footer]) [b] hfits' hinv1
      refine ⟨cg :: groups, cg', ?_, ?_, ?_, ?_, hinv'⟩
      · rw [heq, List.map_cons, List.append_assoc, List.singleton_append]
      · rw [List.flatten_cons, List.append_assoc, hjoin, List.singleton_append]
      · intro g hg
        rcases List.mem_cons.mp hg with hg | hg
        · rw [hg]; exact hcg
        · exact hne g hg
      · intro g hg
        rcases List.mem_cons.mp hg with hg | hg
        · rw [hg]; exact hinv
        · exact hsz g hg
    · rw [if_neg hover]
      have hcur : (header ++ concatStr cg) ++ b = header ++ concatStr (cg ++ [b]) := by
        rw [concatStr_append_single, String.append_assoc]
      rw [hcur]
      have hinv2 : header.length + (concatStr (cg ++ [b])).length + footer.length ≤ CHUNK_LIMIT := by
        rw [concatStr_append_single, String.length_append]
        rw [String.length_append] at hover
        omega
      obtain ⟨groups, cg', heq, hjoin, hne, hsz, hinv'⟩ := ih msgs (cg ++ [b]) hfits' hinv2
      refine ⟨groups, cg', heq, ?_, hne, hsz, hinv'⟩
      rw [hjoin, List.append_assoc, List.singleton_append]

/-- A fixed oversized item block (3999 characters). -/
def bigBlock : String := ⟨List.replicate 3999 'x'⟩

/-- Helper for the C4 counterexample, stated over an opaque block of
length 3999 so that no character-level evaluation is needed. -/
theorem chunk_oversize_flush (B : String) (hB : B.length = 3999) :
    chunkMessages "H" "F" [B] = ["H" ++ "F", ("H" ++ B) ++ "F"] := by
  have h1 : ("H" : String).length = 1 := rfl
  have h2f : ("F" : String).length = 1 := rfl
  have hcond : CHUNK_LIMIT < ("H" : String).length + B.length + ("F" : String).length := by
    rw [hB, h1, h2f]; norm_num [CHUNK_LIMIT]
  have hne : "H" ++ B ≠ "H" := by
    intro h
    have h3 := congrArg String.length h
    rw [String.length_append, hB, h1] at h3
    norm_num at h3
  simp only [chunkMessages, List.foldl, chunkStep, if_pos hcond, List.nil_append]
  rw [if_pos hne]
  rfl

/-- Counterexample to claim C4: one item block of 3999 characters (longer
than the 3900 budget — e.g. a very long title) makes the composer emit a
message of length 4001 > 3900 **and**, beforehand, a message consisting of
the header and footer alone, with no item block: the guard of
src/main.py:411 flushes the header-only buffer and seeds the next buffer
with the oversized block, which the final flush then emits unchecked.
(The header and footer are runtime values; `"H"`/`"F"` instantiate them.) -/
theorem chunk_oversize_counterexample :
    chunkMessages "H" "F" [bigBlock] = ["H" ++ "F", ("H" ++ bigBlock) ++ "F"] ∧
    CHUNK_LIMIT < (("H" ++ bigBlock) ++ "F").length := by
  have hB : bigBlock.length = 3999 := List.length_replicate 3999 'x'
  have h1 : ("H" : String).length = 1 := rfl
  have h2f : ("F" : String).length = 1 := rfl
  constructor
  · exact chunk_oversize_flush bigBlock hB
  · rw [String.length_append, String.length_append, hB, h1, h2f]
    norm_num [CHUNK_LIMIT]

/-- Claim C4 (amended): provided every item block is nonempty and
individually fits beside the header and footer
(`header + block + footer ≤ 3900` — true of real rendered blocks except
for extreme titles, see the counterexample), the composer cuts the block
sequence into consecutive nonempty groups: each emitted message is
header ++ (its group's blocks, in order) ++ footer, the groups
concatenate back to the input sequence in order, every message fits the
3900 budget, and no message is the bare header+footer. -/
theorem chunk_spec_amended (header footer : String) (blocks : List String)
    (hnb : ∀ b ∈ blocks, b ≠ "")
    (hfits : ∀ b ∈ blocks, header.length + b.length + footer.length ≤ CHUNK_LIMIT) :
    ∃ groups : List (List String),
      chunkMessages header footer blocks =
        groups.map (fun g => (header ++ concatStr g) ++ footer) ∧
      groups.flatten = blocks ∧
      (∀ g ∈ groups, g ≠ []) ∧
      (∀ msg ∈ chunkMessages header footer blocks,
        msg.length ≤ CHUNK_LIMIT ∧ msg ≠ header ++ footer) := by
  cases blocks with
  | nil =>
    refine ⟨[], ?_, rfl, by simp, ?_⟩
    · show (if header ≠ header then _ else ([] : List String)) = []
      rw [if_neg (fun h => h rfl)]
    · intro msg hmsg
      rw [show chunkMessages header footer [] = [] from by
        show (if header ≠ header then _ else ([] : List String)) = []
        rw [if_neg (fun h => h rfl)]] at hmsg
      exact absurd hmsg (List.not_mem_nil msg)
  | cons b0 rest =>
    have hinv0 : header.length + (concatStr []).length + footer.length ≤ CHUNK_LIMIT := by
      have := hfits b0 (List.mem_cons_self b0 rest)
      have h0 : (concatStr []).length = 0 := rfl
      omega
    obtain ⟨groups, cg', heq, hjoin, hne, hsz, hinv'⟩ :=
      chunk_loop_spec header footer (b0 :: rest) [] [] hfits hinv0
    rw [List.nil_append] at hjoin
    have h0 : header ++ concatStr [] = header := String.append_empty header
    rw [h0] at heq
    have hmain : (b0 :: rest).foldl (chunkStep header footer) ([], header) =
        (groups.map (fun g => (header ++ concatStr g) ++ footer), header ++ concatStr cg') := by
      rw [heq, List.nil_append]
    -- elements of every group and of the leftover are blocks, hence nonempty
    have helts : ∀ x, (∀ g ∈ groups, x ∈ g → x ≠ "") ∧ (x ∈ cg' → x ≠ "") := by
      intro x
      constructor
      · intro g hg hx
        apply hnb
        rw [← hjoin]
        exact List.mem_append_left _ (List.mem_flatten.mpr ⟨g, hg, hx⟩)
      · intro hx
        apply hnb
        rw [← hjoin]
        exact List.mem_append_right _ hx
    have hmsg_facts : ∀ g, g ∈ groups ∨ g = cg' ∧ cg' ≠ [] →
        ((header ++ concatStr g) ++ footer).length ≤ CHUNK_LIMIT ∧
        (header ++ concatStr g) ++ footer ≠ header ++ footer := by
      intro g hg
      have hglen : header.length + (concatStr g).length + footer.length ≤ CHUNK_LIMIT := by
        rcases hg with hg | ⟨rfl, _⟩
        · exact hsz g hg
        · exact hinv'
      have hgne : g ≠ [] := by
        rcases hg with hg | ⟨rfl, hcg⟩
        · exact hne g hg
        · exact hcg
      have hgelts : ∀ b ∈ g, b ≠ "" := by
        intro b hb
        rcases hg with hg | ⟨rfl, _⟩
        · exact ((helts b).1) g hg hb
        · exact (helts b).2 hb
      have hpos := concatStr_length_pos g hgne hgelts
      constructor
      · rw [String.length_append, String.length_append]
        omega
      · intro hbad
        have h3 := congrArg String.length hbad
        rw [String.length_append, String.length_append, String.length_append] at h3
        omega
    unfold chunkMessages
    rw [hmain]
    by_cases hcg : cg' = []
    · subst hcg
      rw [show header ++ concatStr [] = header from String.append_empty header]
      rw [if_neg (fun h => h rfl)]
      refine ⟨groups, rfl, ?_, hne, ?_⟩
      · rw [← hjoin, List.append_nil]
      · intro msg hmsg
        rcases List.mem_map.mp hmsg with ⟨g, hg, rfl⟩
        exact hmsg_facts g (Or.inl hg)
    · have hr2 : header ++ concatStr cg' ≠ header := by
        intro hbad
        have h3 := congrArg String.length hbad
        rw [String.length_append] at h3
        have hpos := concatStr_length_pos cg' hcg (fun b hb => (helts b).2 hb)
        omega
      rw [if_pos hr2]
      refine ⟨groups ++ [cg'], ?_, ?_, ?_, ?_⟩
      · rw [List.map_append, List.map_cons, List.map_nil]
      · rw [List.flatten_append, List.flatten_cons, List.flatten_nil, List.append_nil, hjoin]
      · intro g hg
        rcases List.mem_append.mp hg with hg | hg
        · exact hne g hg
        · rw [List.mem_singleton.mp hg]; exact hcg
      · intro msg hmsg
        rcases List.mem_append.mp hmsg with hmsg | hmsg
        · rcases List.mem_map.mp hmsg with ⟨g, hg, rfl⟩
          exact hmsg_facts g (Or.inl hg)
        · rw [List.mem_singleton.mp hmsg]
          exact hmsg_facts cg' (Or.inr ⟨rfl, hcg⟩)

/-- Witness for the amended C4 statement: two small blocks, both fitting,
are packed into one message that meets every guarantee. -/
theorem chunk_spec_amended_witness :
    ∃ groups : List (List String),
      chunkMessages "H" "F" ["b1", "b2"] =
        groups.map (fun g => ("H" ++ concatStr g) ++ "F") ∧
      groups.flatten = ["b1", "b2"] ∧
      (∀ g ∈ groups, g ≠ []) ∧
      (∀ msg ∈ chunkMessages "H" "F" ["b1", "b2"],
        msg.length ≤ CHUNK_LIMIT ∧ msg ≠ "H" ++ "F") :=
  chunk_spec_amended "H" "F" ["b1", "b2"] (by decide) (by decide)

/-! ### C7: escaping in the rendered item block -/

/-- The characters `html.escape` (quote=True) rewrites. -/
def isEscChar (c : Char) : Bool :=
  c = '&' || c = '<' || c = '>' || c = '"' || c = '\''

/-- `s` contains no markup-significant characters. -/
def noEscChars (s : String) : Bool :=
  s.data.all (fun c => !(isEscChar c))

theorem escapeChar_eq_self (c : Char) (h : isEscChar c = false) : escapeChar c = [c] := by
  unfold isEscChar at h
  unfold escapeChar
  simp only [Bool.or_eq_false_iff, decide_eq_false_iff_not] at h
  rw [if_neg h.1.1.1.1, if_neg h.1.1.1.2, if_neg h.1.1.2, if_neg h.1.2, if_neg h.2]

theorem escapeList_eq_self (l : List Char) (h : ∀ c ∈ l, isEscChar c = false) :
    escapeList l = l := by
  induction l with
  | nil => rfl
  | cons c cs ih =>
    show escapeChar c ++ escapeList cs = c :: cs
    rw [escapeChar_eq_self c (h c (List.mem_cons_self c cs)),
      ih (fun x hx => h x (List.mem_cons_of_mem _ hx))]
    rfl

/-- A string without markup-significant characters is fixed by
`html.escape`. -/
theorem htmlEscape_eq_self (s : String) (h : noEscChars s = true) : htmlEscape s = s := by
  have hl : ∀ c ∈ s.data, isEscChar c = false := by
    intro c hc
    have := List.all_eq_true.mp h c hc
    simpa using this
  show (⟨escapeList s.data⟩ : String) = s
  rw [escapeList_eq_self s.data hl]

/-- An article whose URL smuggles markup: a quote that closes the `href`
attribute and an extra tag. -/
def itemX : Article :=
  { title_fa := some "t<u>", source := some "BBC", url := some "https://e.com/a'><u>",
    urgency := some 7, summary := some (.list ["s1 & s2"]), impact := some "imp",
    tag := some "tag one" }

/-- Counterexample to claim C7: not *all* user-supplied text is escaped —
the article URL (and likewise the image URL) is interpolated raw into
`<a href='...'>` (src/main.py:400,403).  For `itemX` the rendered block
differs from the fully-escaped reference rendering and contains the URL's
`'` and `<u>` verbatim, closing the attribute and injecting a tag, while
the title *is* escaped (no raw `t<u>` appears). -/
theorem render_url_unescaped_counterexample :
    render_item itemX ≠ render_item_specEscaped itemX ∧
    strContainsSub (render_item itemX) "href='https://e.com/a'><u>'" = true ∧
    strContainsSub (render_item itemX) "t<u>" = false := by
  refine ⟨by decide, by decide, by decide⟩

/-- Claim C7 (amended): the title, source, summary bullets, impact line
and category tag are HTML-escaped before embedding, but the article URL
and the hidden-preview image URL are embedded raw; consequently the
rendered block coincides with the fully-escaped reference rendering
exactly on items whose URL fields contain no markup-significant
characters. -/
theorem render_escapes_amended (item : Article)
    (hu : noEscChars (item.url.getD "") = true)
    (hi : noEscChars (item.image.getD "") = true) :
    render_item item = render_item_specEscaped item := by
  unfold render_item render_item_specEscaped
  rw [htmlEscape_eq_self _ hu, htmlEscape_eq_self _ hi]

/-- Witness for the amended C7 statement: a clean item renders identically
under both renderings. -/
theorem render_escapes_amended_witness :
    render_item { title_fa := some "t", url := some "https://e.com/a" } =
      render_item_specEscaped { title_fa := some "t", url := some "https://e.com/a" } :=
  render_escapes_amended { title_fa := some "t", url := some "https://e.com/a" }
    (by decide) (by decide)

end RasadAI
